import Mathlib

/-!
# School REST API — shallow embedding and verification

A shallow embedding of the school-management REST API (three source files:
the teacher controller together with the Express app composition, the JWT
authentication middleware together with the student controller, and the User
model).  JavaScript string primitives used by the code (`split`, `trim`,
`parseInt`, truthiness of `x || d`) are modelled explicitly on `List Char`
so that everything is executable by the kernel.
-/

namespace SchoolAPI

/-! ## JavaScript string primitives -/

/-- Splitting a character list at every occurrence of the separator `c`,
modelling the JavaScript `String.prototype.split` with a one-character
separator: `"".split(c)` is `[""]`, separators at the ends produce empty
segments, exactly as in JS. -/
def splitOnChar (c : Char) : List Char → List (List Char)
  | [] => [[]]
  | x :: xs =>
    match splitOnChar c xs with
    | [] => if x = c then [[], [x]] else [[x]]
    | y :: ys => if x = c then [] :: y :: ys else (x :: y) :: ys

/-- `jsSplit sep s` models the JavaScript `s.split(sep)` for a one-character
separator, as a list of strings. -/
def jsSplit (sep : Char) (s : String) : List String :=
  (splitOnChar sep s.toList).map fun l => String.mk l

/-- Whitespace test used by the model of `String.prototype.trim`. -/
def isWsChar (c : Char) : Bool :=
  c = ' ' || c = '\t' || c = '\n' || c = '\r'

/-- Model of the JavaScript `s.trim()`: drop leading and trailing
whitespace. -/
def jsTrim (s : String) : String :=
  String.mk (((s.toList.dropWhile isWsChar).reverse.dropWhile isWsChar).reverse)

/-- Numeric value of a list of decimal digit characters. -/
def natOfDigits (ds : List Char) : Nat :=
  ds.foldl (fun a c => 10 * a + (c.toNat - 48)) 0

/-- Model of the JavaScript `parseInt(s)` (decimal): skip leading
whitespace, read an optional sign, then the longest prefix of decimal
digits; `none` models `NaN` (no digits found). -/
def parseIntJS (s : String) : Option Int :=
  let cs := s.toList.dropWhile isWsChar
  let sr : Int × List Char :=
    match cs with
    | '-' :: r => (-1, r)
    | '+' :: r => (1, r)
    | r => (1, r)
  let ds := sr.2.takeWhile Char.isDigit
  if ds.isEmpty then none
  else some (sr.1 * (natOfDigits ds : Int))

/-- Model of the JavaScript expression `x || d` where `x` is the result of
`parseInt`: `NaN` (here `none`) and `0` are falsy and yield the default
`d`; every other number passes through, negative numbers included. -/
def jsOrInt (x : Option Int) (d : Int) : Int :=
  match x with
  | none => d
  | some v => if v = 0 then d else v

/-- Model of the JavaScript expression `s || d` on strings: the empty
string is falsy and yields the default. -/
def jsOrStr (s : String) (d : String) : String :=
  if s = "" then d else s

/-! ## Authentication middleware (`src/middleware/auth.js`)

`authenticateJWT` reads the `Authorization` header.  `jwt.verify` is
abstracted as a function `String → Option α` returning the decoded claims
on success; `jwt.verify` called on `undefined` (a missing second segment)
always reports an error, which the model of the token lookup reflects. -/

/-- Outcome of the authentication middleware: `unauthorized` models
`res.sendStatus(401)`, `forbidden` models `res.sendStatus(403)`, and
`next u` models setting `req.user = u` and calling `next()`. -/
inductive AuthResult (α : Type) where
  | unauthorized : AuthResult α
  | forbidden : AuthResult α
  | next (user : α) : AuthResult α
deriving DecidableEq, Repr

/-- `jwt.verify(token, secret, cb)` where `token : Option String` models the
possibly-`undefined` JavaScript value `authHeader.split(' ')[1]`: a missing
token always fails verification (the library rejects `undefined`). -/
def jwtVerify {α : Type} (verify : String → Option α) : Option String → Option α
  | none => none
  | some t => verify t

/-- `authenticateJWT` from `src/middleware/auth.js`: if the header is
absent, send 401; otherwise verify the second space-delimited segment,
sending 403 on error and passing control (with the decoded user) on
success. -/
def authenticateJWT {α : Type} (verify : String → Option α)
    (authHeader : Option String) : AuthResult α :=
  match authHeader with
  | some h =>
    match jwtVerify verify ((jsSplit ' ' h).get? 1) with
    | none => AuthResult.forbidden
    | some u => AuthResult.next u
  | none => AuthResult.unauthorized

/-- The guard in the middleware is `if (authHeader)`, a truthiness test on
the raw header value: a present-but-empty header (`authorization: ''`,
which Node delivers for an empty header line) is falsy exactly like a
missing one.  `headerIfTruthy` collapses the falsy values to `none`. -/
def headerIfTruthy (raw : Option String) : Option String :=
  match raw with
  | none => none
  | some h => if h = "" then none else some h

/-- `authenticateJWT` acting on the raw header value of the request:
the truthiness check first (an empty string takes the 401 branch), then
the contract above on a truthy header. -/
def authenticateJWTRaw {α : Type} (verify : String → Option α)
    (raw : Option String) : AuthResult α :=
  authenticateJWT verify (headerIfTruthy raw)

/-! ## Resource controllers (`teacher.controller.js`, student controller)

The list handlers (`getAllTeachers` / `getAllStudents`) are symmetric; both
are embedded by one function parametrised by the resource's relation
allow-list.  The single ORM call `db.X.findAndCountAll({...})` is abstracted
as a function from the options object the controller builds to an
`Except`-result (the `catch` branch handles a thrown error). -/

/-- Property names every JavaScript object literal inherits from
`Object.prototype`; a bracket lookup `obj[name]` on any of them yields a
truthy value (a function, or `Object.prototype` itself for `__proto__`)
even though the object declares no such key. -/
def objectProtoMembers : List String :=
  ["constructor", "hasOwnProperty", "isPrototypeOf", "propertyIsEnumerable",
   "toLocaleString", "toString", "valueOf", "__defineGetter__",
   "__defineSetter__", "__lookupGetter__", "__lookupSetter__", "__proto__"]

/-- A truthy value the bracket lookup `validRelations[name]` can produce in
`getAllTeachers`: one of the two declared relation configs, or an
inherited `Object.prototype` member, which the controller pushes into the
include array all the same. -/
inductive TeacherLookup where
  | Courses : TeacherLookup
  | Students : TeacherLookup
  | protoMember (name : String) : TeacherLookup
deriving DecidableEq, Repr

/-- A truthy value the bracket lookup `validRelations[name]` can produce in
`getAllStudents`: one of the two declared relation configs, or an
inherited `Object.prototype` member. -/
inductive StudentLookup where
  | Courses : StudentLookup
  | Teacher : StudentLookup
  | protoMember (name : String) : StudentLookup
deriving DecidableEq, Repr

/-- The bracket lookup `validRelations[name]` for the Teacher resource:
case-sensitive match against the own keys `Courses` and `Students`, then
the prototype chain — an `Object.prototype` member name is truthy too;
everything else is `undefined` (`none`). -/
def teacherValidRelations (s : String) : Option TeacherLookup :=
  if s = "Courses" then some TeacherLookup.Courses
  else if s = "Students" then some TeacherLookup.Students
  else if s ∈ objectProtoMembers then some (TeacherLookup.protoMember s)
  else none

/-- The bracket lookup `validRelations[name]` for the Student resource:
case-sensitive match against the own keys `Courses` and `Teacher`, then
the prototype chain. -/
def studentValidRelations (s : String) : Option StudentLookup :=
  if s = "Courses" then some StudentLookup.Courses
  else if s = "Teacher" then some StudentLookup.Teacher
  else if s ∈ objectProtoMembers then some (StudentLookup.protoMember s)
  else none

/-- Query-string parameters of a list request; `none` models an absent
parameter (`undefined` in JS). -/
structure ListQuery where
  limit : Option String
  page : Option String
  sort : Option String
  includeQ : Option String
deriving Repr, DecidableEq

/-- `parseInt(req.query.limit) || 10` (`parseInt(undefined)` is `NaN`). -/
def effLimit (q : ListQuery) : Int :=
  jsOrInt (match q.limit with | none => none | some s => parseIntJS s) 10

/-- `parseInt(req.query.page) || 1`. -/
def effPage (q : ListQuery) : Int :=
  jsOrInt (match q.page with | none => none | some s => parseIntJS s) 1

/-- `req.query.sort === 'asc' ? 'ASC' : 'DESC'` (strict equality on a
possibly-`undefined` value). -/
def sortOrderStr (q : ListQuery) : String :=
  if q.sort = some "asc" then "ASC" else "DESC"

/-- `req.query.include || ''`. -/
def rawInclude (q : ListQuery) : String :=
  jsOrStr (match q.includeQ with | none => "" | some s => s) ""

/-- The `include` array the controller builds: split the parameter on
commas, trim each segment, keep (in order, duplicates included) every
segment found in the allow-list. -/
def buildInclude {ι : Type} (validRel : String → Option ι) (s : String) :
    List ι :=
  (jsSplit ',' s).foldl
    (fun acc seg =>
      match validRel (jsTrim seg) with
      | some r => acc ++ [r]
      | none => acc)
    []

/-- The options object passed to `findAndCountAll`: the include list (or
`undefined` when it is empty), `limit`, `offset`, and the `order` direction
string for the `createdAt` key. -/
structure QueryOptions (ι : Type) where
  includeArg : Option (List ι)
  qLimit : Int
  offset : Int
  orderDir : String
deriving Repr, DecidableEq

/-- The options `getAll` builds from the query parameters
(`include: include.length ? include : undefined`, `limit`,
`offset: (page - 1) * limit`, `order: [['createdAt', sortOrder]]`). -/
def listOptions {ι : Type} (validRel : String → Option ι) (q : ListQuery) :
    QueryOptions ι :=
  let inc := buildInclude validRel (rawInclude q)
  { includeArg := if inc.length = 0 then none else some inc
    qLimit := effLimit q
    offset := (effPage q - 1) * effLimit q
    orderDir := sortOrderStr q }

/-- `Math.ceil(count / limit)` on integer inputs: the ceiling of the exact
rational quotient. -/
def mathCeilDiv (n : Nat) (l : Int) : Int :=
  Int.ceil ((n : ℚ) / (l : ℚ))

/-- The `meta` object of the list-response envelope. -/
structure ListMeta where
  totalItems : Nat
  totalPages : Int
  currentPage : Int
  itemsPerPage : Int
  sortOrder : String
  includedRelations : String
deriving Repr, DecidableEq

/-- The `{ meta, data }` envelope returned by list endpoints. -/
structure ListEnvelope (ρ : Type) where
  meta : ListMeta
  data : List ρ
deriving Repr, DecidableEq

/-- The envelope the list handler serialises from the query parameters and
the `{count, rows}` returned by the single `findAndCountAll` call
(`includedRelations: includeParam || 'none'`). -/
def mkEnvelope {ρ : Type} (q : ListQuery) (count : Nat) (rows : List ρ) :
    ListEnvelope ρ :=
  { meta :=
      { totalItems := count
        totalPages := mathCeilDiv count (effLimit q)
        currentPage := effPage q
        itemsPerPage := effLimit q
        sortOrder := sortOrderStr q
        includedRelations := jsOrStr (rawInclude q) "none" }
    data := rows }

/-- Body of a controller response: a single record, a list envelope, a
`{message: ...}` object, or an `{error: ...}` object. -/
inductive CrudBody (ρ : Type) where
  | record (r : ρ) : CrudBody ρ
  | envelope (e : ListEnvelope ρ) : CrudBody ρ
  | message (m : String) : CrudBody ρ
  | jsError (m : String) : CrudBody ρ
deriving Repr, DecidableEq

/-- An HTTP response a controller sends: status code and JSON body.  Each
controller code path performs exactly one `res...` call, which this total
function type reflects. -/
structure Resp (ρ : Type) where
  status : Nat
  body : CrudBody ρ
deriving Repr, DecidableEq

/-- The list handler (`getAllTeachers` / `getAllStudents`): build the
options from the query, run the single count+fetch call, and either
serialise the envelope (status 200, the implicit status of `res.json`) or
answer 500 with the error message. -/
def getAllHandler {ρ ι : Type} (validRel : String → Option ι)
    (dbFindAndCountAll : QueryOptions ι → Except String (Nat × List ρ))
    (q : ListQuery) : Resp ρ :=
  match dbFindAndCountAll (listOptions validRel q) with
  | Except.error e => { status := 500, body := CrudBody.jsError e }
  | Except.ok (count, rows) =>
      { status := 200, body := CrudBody.envelope (mkEnvelope q count rows) }

/-- Reference semantics of `findAndCountAll` with `distinct: true` over an
in-memory table: `count` is the number of primary records, and `rows` is
the table sorted by `createdAt` in the requested direction (a stable sort,
modelling `ORDER BY createdAt`), then sliced by `OFFSET`/`LIMIT`. -/
def sqlFindAndCountAll {ρ ι : Type} (records : List ρ) (createdAt : ρ → Nat)
    (opts : QueryOptions ι) : Nat × List ρ :=
  let sorted :=
    if opts.orderDir = "ASC" then
      List.insertionSort (fun a b => createdAt a ≤ createdAt b) records
    else
      List.insertionSort (fun a b => createdAt b ≤ createdAt a) records
  (records.length, (sorted.drop opts.offset.toNat).take opts.qLimit.toNat)

/-- `create`: `db.X.create(req.body)` abstracted as its `Except`-outcome;
201 with the created record, or 500 with the error message. -/
def createHandler {ρ : Type} (dbCreate : Except String ρ) : Resp ρ :=
  match dbCreate with
  | Except.ok r => { status := 201, body := CrudBody.record r }
  | Except.error e => { status := 500, body := CrudBody.jsError e }

/-- `getById`: `findByPk` abstracted as its outcome (`ok none` = record
absent); 404 `{message: 'Not found'}` when absent, 200 with the record,
500 on a thrown error. -/
def getByIdHandler {ρ : Type} (dbFind : Except String (Option ρ)) : Resp ρ :=
  match dbFind with
  | Except.error e => { status := 500, body := CrudBody.jsError e }
  | Except.ok none => { status := 404, body := CrudBody.message "Not found" }
  | Except.ok (some r) => { status := 200, body := CrudBody.record r }

/-- `update`: fetch-then-merge; 404 when missing, otherwise apply the body
via the (possibly failing) `record.update` and answer 200 with the updated
record, 500 on any thrown error. -/
def updateHandler {ρ : Type} (dbFind : Except String (Option ρ))
    (dbUpdate : ρ → Except String ρ) : Resp ρ :=
  match dbFind with
  | Except.error e => { status := 500, body := CrudBody.jsError e }
  | Except.ok none => { status := 404, body := CrudBody.message "Not found" }
  | Except.ok (some r) =>
      match dbUpdate r with
      | Except.error e => { status := 500, body := CrudBody.jsError e }
      | Except.ok r2 => { status := 200, body := CrudBody.record r2 }

/-- `delete`: fetch-then-remove; 404 when missing, otherwise destroy and
answer 200 `{message: 'Deleted'}`, 500 on any thrown error. -/
def deleteHandler {ρ : Type} (dbFind : Except String (Option ρ))
    (dbDestroy : ρ → Except String Unit) : Resp ρ :=
  match dbFind with
  | Except.error e => { status := 500, body := CrudBody.jsError e }
  | Except.ok none => { status := 404, body := CrudBody.message "Not found" }
  | Except.ok (some r) =>
      match dbDestroy r with
      | Except.error e => { status := 500, body := CrudBody.jsError e }
      | Except.ok _ => { status := 200, body := CrudBody.message "Deleted" }

/-! ### Stateful semantics of `delete` / `getById` over an in-memory table

For the delete-then-get property the storage layer is made concrete: a
table is an association list from primary key to record, `findByPk` is the
first match, and `record.destroy()` removes that row. -/

/-- `findByPk` over an in-memory table. -/
def findByPk {ρ : Type} (table : List (Nat × ρ)) (i : Nat) : Option ρ :=
  (table.find? fun e => e.1 = i).map fun e => e.2

/-- `record.destroy()`: remove the fetched row from the table. -/
def destroyPk {ρ : Type} (table : List (Nat × ρ)) (i : Nat) : List (Nat × ρ) :=
  table.eraseP fun e => e.1 = i

/-- The delete handler acting on the in-memory table (no storage fault):
it returns the new table and the response sent. -/
def deleteOp {ρ : Type} (table : List (Nat × ρ)) (i : Nat) :
    List (Nat × ρ) × Resp ρ :=
  match findByPk table i with
  | none => (table, { status := 404, body := CrudBody.message "Not found" })
  | some _ =>
      (destroyPk table i, { status := 200, body := CrudBody.message "Deleted" })

/-- The getById handler acting on the in-memory table (no storage fault). -/
def getByIdOp {ρ : Type} (table : List (Nat × ρ)) (i : Nat) : Resp ρ :=
  match findByPk table i with
  | none => { status := 404, body := CrudBody.message "Not found" }
  | some r => { status := 200, body := CrudBody.record r }

/-! ## App composition (`index.js`)

The Express app is the ordered list of its mounts.  A request path is its
list of segments (`/students/3` is `["students", "3"]`); `app.use(p, r)`
matches every path whose segments extend `p`, and `app.get('/', h)` matches
the root exactly.  A router is a function from the request (everything but
the `Authorization` header — no controller reads that header) to an
optional response; `none` models falling through to the next matching
mount, and an unmatched request ends in the Express default 404. -/

/-- A generic HTTP response at the composition layer: a routed response of
payload `β`, or the bare status pages the framework and the middleware
produce (`res.sendStatus`, the default 404). -/
inductive HttpAnswer (β : Type) where
  | payload (b : β) : HttpAnswer β
  | statusOnly (status : Nat) : HttpAnswer β
deriving DecidableEq, Repr

/-- The part of a request the routers and controllers look at: path
segments and an opaque rest (method, query, body).  The `Authorization`
header is deliberately not part of it: no router in this codebase reads
it. -/
structure RequestCore (κ : Type) where
  path : List String
  rest : κ
deriving DecidableEq, Repr

/-- A mounted router: `none` = `next()` (no route matched inside it). -/
def Router (κ β : Type) : Type :=
  RequestCore κ → Option (HttpAnswer β)

/-- One `app.use` / `app.get` line: the mount path, whether the exact path
is required (`app.get`) or prefix matching applies (`app.use`), whether
`authenticateJWT` guards the router, and the router itself. -/
structure MountEntry (κ β : Type) where
  mountPath : List String
  exactMatch : Bool
  requiresAuth : Bool
  router : Router κ β

/-- Does a mount match the request path? -/
def mountMatches {κ β : Type} (m : MountEntry κ β) (p : List String) : Bool :=
  if m.exactMatch then p = m.mountPath else m.mountPath.isPrefixOf p

/-- Walk the mounts in registration order; a guarded mount first runs
`authenticateJWT`, whose 401/403 terminate the request; an unmatched
request falls off the end into the framework default 404. -/
def dispatch {α κ β : Type} (verify : String → Option α)
    (mounts : List (MountEntry κ β)) (authHeader : Option String)
    (core : RequestCore κ) : HttpAnswer β :=
  match mounts with
  | [] => HttpAnswer.statusOnly 404
  | m :: rest =>
    if mountMatches m core.path then
      if m.requiresAuth then
        match authenticateJWT verify authHeader with
        | AuthResult.unauthorized => HttpAnswer.statusOnly 401
        | AuthResult.forbidden => HttpAnswer.statusOnly 403
        | AuthResult.next _ =>
          match m.router core with
          | some r => r
          | none => dispatch verify rest authHeader core
      else
        match m.router core with
        | some r => r
        | none => dispatch verify rest authHeader core
    else dispatch verify rest authHeader core

/-- The mount list of `index.js`, in source order: `/docs`, then the four
routers unauthenticated, then courses/students/teachers again behind
`authenticateJWT`, then `app.get('/')`.  (`express.json()` only parses the
body and never responds, so it is not a mount here.) -/
def schoolApp {κ β : Type}
    (studentR courseR teacherR authR docsR rootR : Router κ β) :
    List (MountEntry κ β) :=
  [ { mountPath := ["docs"], exactMatch := false, requiresAuth := false,
      router := docsR }
  , { mountPath := ["students"], exactMatch := false, requiresAuth := false,
      router := studentR }
  , { mountPath := ["courses"], exactMatch := false, requiresAuth := false,
      router := courseR }
  , { mountPath := ["teachers"], exactMatch := false, requiresAuth := false,
      router := teacherR }
  , { mountPath := ["auth"], exactMatch := false, requiresAuth := false,
      router := authR }
  , { mountPath := ["courses"], exactMatch := false, requiresAuth := true,
      router := courseR }
  , { mountPath := ["students"], exactMatch := false, requiresAuth := true,
      router := studentR }
  , { mountPath := ["teachers"], exactMatch := false, requiresAuth := true,
      router := teacherR }
  , { mountPath := [], exactMatch := true, requiresAuth := false,
      router := rootR } ]

/-! ## Theorems -/

/-- C2: for every incoming request, an absent Authorization header yields
status 401 and the next handler is never invoked; a present header whose
second space-delimited segment fails verification yields status 403; on
successful verification the decoded claims are attached (`next u`) and
control passes on. -/
theorem authenticateJWT_contract {α : Type} (verify : String → Option α) :
    (authenticateJWT verify none = AuthResult.unauthorized) ∧
    (∀ u : α, authenticateJWT verify none ≠ AuthResult.next u) ∧
    (∀ h : String, jwtVerify verify ((jsSplit ' ' h).get? 1) = none →
      authenticateJWT verify (some h) = AuthResult.forbidden) ∧
    (∀ (h : String) (u : α), jwtVerify verify ((jsSplit ' ' h).get? 1) = some u →
      authenticateJWT verify (some h) = AuthResult.next u) := by
  refine ⟨rfl, fun u => by simp [authenticateJWT], fun h hv => ?_, fun h u hv => ?_⟩
  · simp only [authenticateJWT]
    rw [hv]
  · simp only [authenticateJWT]
    rw [hv]

/-- A concrete verifier for witnesses: accepts exactly the token "good". -/
def demoVerify : String → Option Nat := fun t => if t = "good" then some 7 else none

/-- Witness for C2 at a concrete verifier and concrete headers. -/
theorem authenticateJWT_contract_witness :
    authenticateJWT demoVerify none = AuthResult.unauthorized ∧
    authenticateJWT demoVerify (some "Bearer bad") = AuthResult.forbidden ∧
    authenticateJWT demoVerify (some "Bearer good") = AuthResult.next 7 :=
  ⟨(authenticateJWT_contract demoVerify).1,
   (authenticateJWT_contract demoVerify).2.2.1 "Bearer bad" (by decide),
   (authenticateJWT_contract demoVerify).2.2.2 "Bearer good" 7 (by decide)⟩

/-- C9 counterexample: a present-but-empty Authorization header is a
present header with no second space-delimited segment, yet the middleware
answers 401 (the empty string is falsy in `if (authHeader)`), not the 403
the claim demands — and so 401 is not returned exactly when the header is
entirely absent. -/
theorem empty_header_unauthorized :
    authenticateJWTRaw demoVerify (some "") = AuthResult.unauthorized ∧
    ((some "" : Option String) ≠ none) ∧
    (jsSplit ' ' "").get? 1 = none := by
  refine ⟨by decide, by decide, by decide⟩

/-- C9 amended: a present and non-empty Authorization header with no
second space-delimited segment still goes to verification (which rejects
the undefined token) and yields 403; 401 happens exactly when the header
is absent or present-but-empty — the falsy values of the header check. -/
theorem malformed_header_forbidden {α : Type} (verify : String → Option α) :
    (∀ h : String, h ≠ "" → (jsSplit ' ' h).get? 1 = none →
      authenticateJWTRaw verify (some h) = AuthResult.forbidden) ∧
    (∀ raw : Option String,
      authenticateJWTRaw verify raw = AuthResult.unauthorized ↔
        (raw = none ∨ raw = some "")) := by
  constructor
  · intro h hne hseg
    simp only [authenticateJWTRaw, headerIfTruthy, if_neg hne]
    simp only [authenticateJWT]
    rw [hseg]
    rfl
  · intro raw
    rcases raw with _ | h
    · simp [authenticateJWTRaw, headerIfTruthy, authenticateJWT]
    · by_cases hne : h = ""
      · subst hne
        simp [authenticateJWTRaw, headerIfTruthy, authenticateJWT]
      · simp only [authenticateJWTRaw, headerIfTruthy, if_neg hne]
        constructor
        · intro hu
          exfalso
          simp only [authenticateJWT] at hu
          cases hv : jwtVerify verify ((jsSplit ' ' h).get? 1) <;>
            rw [hv] at hu <;> simp at hu
        · rintro (h1 | h2)
          · exact absurd h1 (by simp)
          · exact absurd (Option.some.inj h2) hne

/-- Witness for the amended C9: a single-word header (no space separator)
gets 403; the empty-header case sits on the 401 side of the boundary. -/
theorem malformed_header_forbidden_witness :
    authenticateJWTRaw demoVerify (some "OneWord") = AuthResult.forbidden ∧
    (authenticateJWTRaw demoVerify (some "") = AuthResult.unauthorized ↔
      ((some "" : Option String) = none ∨ (some "" : Option String) = some "")) :=
  ⟨(malformed_header_forbidden demoVerify).1 "OneWord" (by decide) (by decide),
   (malformed_header_forbidden demoVerify).2 (some "")⟩

/-- C4 counterexample: the claim says negative values fall back to the
default, but `parseInt('-5') || 10` evaluates to `-5` (a negative number is
truthy in JavaScript), so `limit=-5` passes through instead of becoming
10. -/
theorem negative_limit_passes_through :
    effLimit { limit := some "-5", page := none, sort := none, includeQ := none } = -5 ∧
    ((-5 : Int) ≠ 10) := by
  constructor
  · decide
  · decide

/-- C4 amended: `limit` defaults to 10 and `page` to 1; a parse failure
(non-numeric) or a parsed zero falls back to the default through the
falsiness of `NaN` and `0`; every other parsed value — negative values
included — passes through uncontrolled. -/
theorem list_param_defaults :
    (∀ q : ListQuery, q.limit = none → effLimit q = 10) ∧
    (∀ (q : ListQuery) (s : String), q.limit = some s → parseIntJS s = none →
      effLimit q = 10) ∧
    (∀ (q : ListQuery) (s : String), q.limit = some s → parseIntJS s = some 0 →
      effLimit q = 10) ∧
    (∀ (q : ListQuery) (s : String) (v : Int), q.limit = some s →
      parseIntJS s = some v → v ≠ 0 → effLimit q = v) ∧
    (∀ q : ListQuery, q.page = none → effPage q = 1) ∧
    (∀ (q : ListQuery) (s : String), q.page = some s → parseIntJS s = none →
      effPage q = 1) ∧
    (∀ (q : ListQuery) (s : String), q.page = some s → parseIntJS s = some 0 →
      effPage q = 1) ∧
    (∀ (q : ListQuery) (s : String) (v : Int), q.page = some s →
      parseIntJS s = some v → v ≠ 0 → effPage q = v) := by
  refine ⟨fun q hq => ?_, fun q s hq hp => ?_, fun q s hq hp => ?_,
    fun q s v hq hp hv => ?_, fun q hq => ?_, fun q s hq hp => ?_,
    fun q s hq hp => ?_, fun q s v hq hp hv => ?_⟩ <;>
  simp [effLimit, effPage, jsOrInt, *]

/-- Witness for the amended C4 at concrete query strings. -/
theorem list_param_defaults_witness :
    effLimit { limit := none, page := none, sort := none, includeQ := none } = 10 ∧
    effLimit { limit := some "0", page := none, sort := none, includeQ := none } = 10 ∧
    effLimit { limit := some "zzz", page := none, sort := none, includeQ := none } = 10 ∧
    effPage { limit := none, page := some "-3", sort := none, includeQ := none } = -3 :=
  ⟨list_param_defaults.1 _ rfl,
   list_param_defaults.2.2.1 _ "0" rfl (by decide),
   list_param_defaults.2.1 _ "zzz" rfl (by decide),
   list_param_defaults.2.2.2.2.2.2.2 _ "-3" (-3) rfl (by decide) (by decide)⟩

/-- The `forEach`/push loop of the controllers collects, in order, the
image under the allow-list lookup of the trimmed comma-segments. -/
lemma buildInclude_foldl {ι : Type} (v : String → Option ι) (l : List String)
    (acc : List ι) :
    l.foldl
      (fun acc seg =>
        match v (jsTrim seg) with
        | some r => acc ++ [r]
        | none => acc)
      acc = acc ++ (l.map jsTrim).filterMap v := by
  induction l generalizing acc with
  | nil => simp
  | cons x xs ih =>
    simp only [List.foldl_cons, List.map_cons, List.filterMap_cons]
    cases hv : v (jsTrim x) with
    | none => simp [hv, ih]
    | some r => simp [hv, ih]

/-- C6 counterexample: `constructor` is not one of the allow-listed
relation names, yet it is not silently dropped — the bracket lookup hits
the inherited `Object.prototype.constructor`, is truthy, and is pushed
into the include array (likewise `toString` for the Student resource). -/
theorem include_proto_member_pushed :
    buildInclude teacherValidRelations "constructor" =
      [TeacherLookup.protoMember "constructor"] ∧
    teacherValidRelations "constructor" ≠ some TeacherLookup.Courses ∧
    teacherValidRelations "constructor" ≠ some TeacherLookup.Students ∧
    buildInclude studentValidRelations "toString" =
      [StudentLookup.protoMember "toString"] := by
  refine ⟨by decide, by decide, by decide, by decide⟩

/-- C6 amended: the include parameter is split on commas, each segment
trimmed and looked up case-sensitively in the per-resource relation
object: the own keys (Teacher: `Courses`, `Students`; Student: `Courses`,
`Teacher`) map to their relation configs, names of inherited
`Object.prototype` members are truthy as well and are pushed instead of
being dropped, and every other name is silently dropped; duplicates are
kept (`filterMap` keeps every occurrence in order). -/
theorem include_allowlist :
    (∀ {ι : Type} (v : String → Option ι) (s : String),
      buildInclude v s = ((jsSplit ',' s).map jsTrim).filterMap v) ∧
    (∀ (s : String) (r : TeacherLookup), teacherValidRelations s = some r ↔
      ((s = "Courses" ∧ r = TeacherLookup.Courses) ∨
       (s = "Students" ∧ r = TeacherLookup.Students) ∨
       (s ∈ objectProtoMembers ∧ r = TeacherLookup.protoMember s))) ∧
    (∀ (s : String) (r : StudentLookup), studentValidRelations s = some r ↔
      ((s = "Courses" ∧ r = StudentLookup.Courses) ∨
       (s = "Teacher" ∧ r = StudentLookup.Teacher) ∨
       (s ∈ objectProtoMembers ∧ r = StudentLookup.protoMember s))) := by
  refine ⟨fun v s => ?_, fun s r => ?_, fun s r => ?_⟩
  · simpa using buildInclude_foldl v (jsSplit ',' s) []
  · constructor
    · intro hsome
      unfold teacherValidRelations at hsome
      split_ifs at hsome with h1 h2 h3
      · exact Or.inl ⟨h1, (Option.some.inj hsome).symm⟩
      · exact Or.inr (Or.inl ⟨h2, (Option.some.inj hsome).symm⟩)
      · exact Or.inr (Or.inr ⟨h3, (Option.some.inj hsome).symm⟩)
    · rintro (⟨rfl, rfl⟩ | ⟨rfl, rfl⟩ | ⟨hmem, rfl⟩)
      · decide
      · decide
      · have hc : s ≠ "Courses" := by rintro rfl; revert hmem; decide
        have hst : s ≠ "Students" := by rintro rfl; revert hmem; decide
        unfold teacherValidRelations
        rw [if_neg hc, if_neg hst, if_pos hmem]
  · constructor
    · intro hsome
      unfold studentValidRelations at hsome
      split_ifs at hsome with h1 h2 h3
      · exact Or.inl ⟨h1, (Option.some.inj hsome).symm⟩
      · exact Or.inr (Or.inl ⟨h2, (Option.some.inj hsome).symm⟩)
      · exact Or.inr (Or.inr ⟨h3, (Option.some.inj hsome).symm⟩)
    · rintro (⟨rfl, rfl⟩ | ⟨rfl, rfl⟩ | ⟨hmem, rfl⟩)
      · decide
      · decide
      · have hc : s ≠ "Courses" := by rintro rfl; revert hmem; decide
        have hst : s ≠ "Teacher" := by rintro rfl; revert hmem; decide
        unfold studentValidRelations
        rw [if_neg hc, if_neg hst, if_pos hmem]

/-- Witness for the amended C6: whitespace, an unknown name, a duplicate
and a prototype-chain hit; the duplicate survives, the unknown is dropped,
the prototype member is pushed. -/
theorem include_allowlist_witness :
    buildInclude studentValidRelations " Teacher ,Courses,bogus,Teacher" =
      ((jsSplit ',' " Teacher ,Courses,bogus,Teacher").map jsTrim).filterMap
        studentValidRelations ∧
    teacherValidRelations "Students" = some TeacherLookup.Students ∧
    teacherValidRelations "valueOf" = some (TeacherLookup.protoMember "valueOf") ∧
    studentValidRelations "Teacher" = some StudentLookup.Teacher ∧
    buildInclude studentValidRelations " Teacher ,Courses,bogus,Teacher" =
      [StudentLookup.Teacher, StudentLookup.Courses, StudentLookup.Teacher] :=
  ⟨include_allowlist.1 studentValidRelations " Teacher ,Courses,bogus,Teacher",
   (include_allowlist.2.1 "Students" TeacherLookup.Students).mpr
     (Or.inr (Or.inl ⟨rfl, rfl⟩)),
   (include_allowlist.2.1 "valueOf" (TeacherLookup.protoMember "valueOf")).mpr
     (Or.inr (Or.inr ⟨by decide, rfl⟩)),
   (include_allowlist.2.2 "Teacher" StudentLookup.Teacher).mpr
     (Or.inr (Or.inl ⟨rfl, rfl⟩)),
   by decide⟩

/-- C1: each resource router is mounted twice on the same path, the
unauthenticated mount registered first (`schoolApp` lists the mounts in
source order); consequently any request whose path lies under a resource
prefix and which its router answers is handled by the first, unguarded
mount, and the response is the same for every value of the Authorization
header — absent, valid or invalid: authentication is a no-op there. -/
theorem resource_auth_noop {α κ β : Type} (verify : String → Option α)
    (studentR courseR teacherR authR docsR rootR : Router κ β)
    (core : RequestCore κ) (resp : HttpAnswer β)
    (hcase :
      (core.path.head? = some "students" ∧ studentR core = some resp) ∨
      (core.path.head? = some "courses" ∧ courseR core = some resp) ∨
      (core.path.head? = some "teachers" ∧ teacherR core = some resp)) :
    ∀ authHeader : Option String,
      dispatch verify (schoolApp studentR courseR teacherR authR docsR rootR)
        authHeader core = resp := by
  intro ah
  obtain ⟨path, k⟩ := core
  rcases hcase with ⟨hp, hr⟩ | ⟨hp, hr⟩ | ⟨hp, hr⟩ <;>
  · cases path with
    | nil => simp at hp
    | cons x t =>
      simp only [List.head?_cons, Option.some.injEq] at hp
      subst hp
      simp [dispatch, schoolApp, mountMatches, List.isPrefixOf, hr]

/-- A router answering exactly `GET`-style requests to `/students`. -/
def demoStudentRouter : Router Unit Nat := fun c =>
  if c.path = ["students"] then some (HttpAnswer.payload 1) else none

/-- A router that never answers. -/
def silentRouter : Router Unit Nat := fun _ => none

/-- Witness for C1: a concrete app in which a `/students` request gets the
same routed answer with a (never-verifying) Authorization header as
without any header. -/
theorem resource_auth_noop_witness :
    dispatch (fun _ => (none : Option Nat))
      (schoolApp demoStudentRouter silentRouter silentRouter silentRouter
        silentRouter silentRouter)
      (some "Bearer whatever") ⟨["students"], ()⟩ = HttpAnswer.payload 1 ∧
    dispatch (fun _ => (none : Option Nat))
      (schoolApp demoStudentRouter silentRouter silentRouter silentRouter
        silentRouter silentRouter)
      none ⟨["students"], ()⟩ = HttpAnswer.payload 1 :=
  ⟨resource_auth_noop _ _ _ _ _ _ _ _ _ (Or.inl ⟨by decide, by decide⟩)
     (some "Bearer whatever"),
   resource_auth_noop _ _ _ _ _ _ _ _ _ (Or.inl ⟨by decide, by decide⟩) none⟩

/-- C7 counterexample: `constructor` names no recognized relation, yet the
request is not equivalent to include omitted — the prototype-chain hit
makes the built include array non-empty, so the handler issues a different
query (`include:` the garbage value instead of `undefined`). -/
theorem include_proto_member_changes_query :
    (listOptions teacherValidRelations
        { limit := none, page := none, sort := none,
          includeQ := some "constructor" }).includeArg =
      some [TeacherLookup.protoMember "constructor"] ∧
    (listOptions teacherValidRelations
        { limit := none, page := none, sort := none,
          includeQ := none }).includeArg = none ∧
    listOptions teacherValidRelations
        { limit := none, page := none, sort := none,
          includeQ := some "constructor" } ≠
      listOptions teacherValidRelations
        { limit := none, page := none, sort := none, includeQ := none } := by
  refine ⟨by decide, by decide, by decide⟩

/-- C7 amended: when every trimmed name in the include parameter fails the
object lookup entirely — it is neither an allow-list key nor the name of
an inherited `Object.prototype` member, so the built include list is
empty — the handler issues the very same single query as with include
omitted, so data and pagination meta coincide with the include-omitted
request and only `meta.includedRelations` differs: it echoes the raw input
string, or is `"none"` when the parameter is empty or absent.  (The lookup
never accepts the empty name, hypothesis `hempty`.) -/
theorem include_unrecognized_noop {ρ ι : Type} (validRel : String → Option ι)
    (dbF : QueryOptions ι → Except String (Nat × List ρ)) (q : ListQuery)
    (hempty : validRel "" = none)
    (hnone : buildInclude validRel (rawInclude q) = []) :
    (listOptions validRel q = listOptions validRel { q with includeQ := none }) ∧
    (getAllHandler validRel dbF q =
      match getAllHandler validRel dbF { q with includeQ := none } with
      | ⟨200, CrudBody.envelope env⟩ =>
        ⟨200, CrudBody.envelope
          { env with meta := { env.meta with
              includedRelations := jsOrStr (rawInclude q) "none" } }⟩
      | other => other) ∧
    (∀ s : String, q.includeQ = some s → s ≠ "" →
      jsOrStr (rawInclude q) "none" = s) ∧
    (q.includeQ = none → jsOrStr (rawInclude q) "none" = "none") ∧
    (q.includeQ = some "" → jsOrStr (rawInclude q) "none" = "none") := by
  have h0 : buildInclude validRel (rawInclude { q with includeQ := none }) = [] := by
    simp [rawInclude, jsOrStr, buildInclude, jsSplit, splitOnChar, jsTrim,
      isWsChar, hempty]
  have hopts : listOptions validRel q = listOptions validRel { q with includeQ := none } := by
    simp [listOptions, hnone, h0, effLimit, effPage, sortOrderStr]
  refine ⟨hopts, ?_, ?_, ?_, ?_⟩
  · simp only [getAllHandler, hopts]
    cases hdb : dbF (listOptions validRel { q with includeQ := none }) with
    | error e => rfl
    | ok p =>
      obtain ⟨N, rows⟩ := p
      simp [mkEnvelope, effLimit, effPage, sortOrderStr, mathCeilDiv]
  · intro s hq hs
    simp [rawInclude, jsOrStr, hq, hs]
  · intro hq
    simp [rawInclude, jsOrStr, hq]
  · intro hq
    simp [rawInclude, jsOrStr, hq]

/-- A query whose include parameter names only unrecognized relations. -/
def qBogus : ListQuery :=
  { limit := none, page := none, sort := none, includeQ := some "Bogus,AlsoBogus" }

/-- A storage stub answering every options object with two records. -/
def dbDemo : QueryOptions StudentLookup → Except String (Nat × List Nat) :=
  fun _ => Except.ok (2, [10, 20])

/-- Witness for C7 at a concrete unrecognized include string. -/
theorem include_unrecognized_noop_witness :
    listOptions studentValidRelations qBogus =
      listOptions studentValidRelations { qBogus with includeQ := none } ∧
    jsOrStr (rawInclude qBogus) "none" = "Bogus,AlsoBogus" :=
  have H := include_unrecognized_noop studentValidRelations dbDemo qBogus
    (by decide) (by decide)
  ⟨H.1, H.2.2.1 "Bogus,AlsoBogus" rfl (by decide)⟩

/-- With unique primary keys, looking a key up again after erasing its row
finds nothing. -/
lemma findByPk_destroyPk {ρ : Type} (table : List (Nat × ρ)) (i : Nat)
    (hnodup : (table.map Prod.fst).Nodup) :
    findByPk (destroyPk table i) i = none := by
  induction table with
  | nil => rfl
  | cons e t ih =>
    obtain ⟨k, r⟩ := e
    simp only [List.map_cons, List.nodup_cons] at hnodup
    obtain ⟨hk, ht⟩ := hnodup
    by_cases hki : k = i
    · subst hki
      have hd : destroyPk ((k, r) :: t) k = t := by
        simp [destroyPk, List.eraseP_cons]
      rw [hd, findByPk, List.find?_eq_none.mpr]
      · rfl
      · intro x hx
        simp only [decide_eq_true_eq]
        intro hxk
        exact hk (hxk ▸ List.mem_map_of_mem Prod.fst hx)
    · have hd : destroyPk ((k, r) :: t) i = (k, r) :: destroyPk t i := by
        simp [destroyPk, List.eraseP_cons, hki]
      rw [hd, findByPk]
      simp only [List.find?_cons, decide_eq_false hki]
      simpa [findByPk] using ih ht

/-- C8: deleting a missing id answers 404 and leaves the table unchanged;
deleting an existing id removes that row and answers 200
`{message: "Deleted"}`, after which getById on the same id answers 404
`{message: "Not found"}`.  Primary keys are unique (`hnodup`), the
storage-level constraint. -/
theorem delete_then_get {ρ : Type} (table : List (Nat × ρ)) (i : Nat)
    (hnodup : (table.map Prod.fst).Nodup) :
    (findByPk table i = none →
      deleteOp table i = (table, ⟨404, CrudBody.message "Not found"⟩)) ∧
    (∀ r : ρ, findByPk table i = some r →
      deleteOp table i = (destroyPk table i, ⟨200, CrudBody.message "Deleted"⟩) ∧
      getByIdOp (deleteOp table i).1 i = ⟨404, CrudBody.message "Not found"⟩) := by
  constructor
  · intro h
    simp [deleteOp, h]
  · intro r hr
    constructor
    · simp [deleteOp, hr]
    · simp [deleteOp, getByIdOp, hr, findByPk_destroyPk table i hnodup]

/-- Witness for C8 on a two-row table. -/
theorem delete_then_get_witness :
    deleteOp [(1, "a"), (2, "b")] 1 =
      ([(2, "b")], ⟨200, CrudBody.message "Deleted"⟩) ∧
    getByIdOp (deleteOp [(1, "a"), (2, "b")] 1).1 1 =
      ⟨404, CrudBody.message "Not found"⟩ ∧
    deleteOp [(2, "b")] 9 = ([(2, "b")], ⟨404, CrudBody.message "Not found"⟩) :=
  have H := delete_then_get [(1, "a"), (2, "b")] 1 (by decide)
  have H2 := (H.2 "a" (by decide))
  ⟨by simpa [destroyPk] using H2.1, H2.2,
   (delete_then_get [(2, "b")] 9 (by decide)).1 (by decide)⟩

/-- C10: every controller operation is a total function from the storage
outcome to a single response (each source path performs exactly one `res`
call, and every thrown storage error is caught by the handler's
`try`/`catch` and mapped to 500 `{error: message}`), and the status is
always in `{201, 500}` for create, `{200, 500}` for list, and
`{200, 404, 500}` for getById, update and delete. -/
theorem handler_status_range {ρ ι : Type} :
    (∀ dbc : Except String ρ,
      (createHandler dbc).status = 201 ∨ (createHandler dbc).status = 500) ∧
    (∀ (validRel : String → Option ι)
       (dbF : QueryOptions ι → Except String (Nat × List ρ)) (q : ListQuery),
      (getAllHandler validRel dbF q).status = 200 ∨
      (getAllHandler validRel dbF q).status = 500) ∧
    (∀ dbf : Except String (Option ρ),
      (getByIdHandler dbf).status = 200 ∨ (getByIdHandler dbf).status = 404 ∨
      (getByIdHandler dbf).status = 500) ∧
    (∀ (dbf : Except String (Option ρ)) (dbu : ρ → Except String ρ),
      (updateHandler dbf dbu).status = 200 ∨ (updateHandler dbf dbu).status = 404 ∨
      (updateHandler dbf dbu).status = 500) ∧
    (∀ (dbf : Except String (Option ρ)) (dbd : ρ → Except String Unit),
      (deleteHandler dbf dbd).status = 200 ∨ (deleteHandler dbf dbd).status = 404 ∨
      (deleteHandler dbf dbd).status = 500) := by
  refine ⟨fun dbc => ?_, fun validRel dbF q => ?_, fun dbf => ?_,
    fun dbf dbu => ?_, fun dbf dbd => ?_⟩
  · cases dbc <;> simp [createHandler]
  · cases h : dbF (listOptions validRel q) with
    | error e => simp [getAllHandler, h]
    | ok p =>
      obtain ⟨N, rows⟩ := p
      simp [getAllHandler, h]
  · rcases dbf with e | _ | r <;> simp [getByIdHandler]
  · rcases dbf with e | _ | r
    · simp [updateHandler]
    · simp [updateHandler]
    · cases h2 : dbu r <;> simp [updateHandler, h2]
  · rcases dbf with e | _ | r
    · simp [deleteHandler]
    · simp [deleteHandler]
    · cases h2 : dbd r <;> simp [deleteHandler, h2]

/-- Witness for C10: a storage fault on create is mapped into the allowed
status set. -/
theorem handler_status_range_witness :
    (createHandler (Except.error "boom") : Resp Nat).status = 201 ∨
    (createHandler (Except.error "boom") : Resp Nat).status = 500 :=
  (handler_status_range (ρ := Nat) (ι := StudentLookup)).1 (Except.error "boom")

/-- `Math.ceil` of the exact quotient agrees with the natural-number
ceiling division `(N + L - 1) / L` whenever the limit is at least 1. -/
lemma mathCeilDiv_eq_natCeil (N : Nat) (L : Int) (hL : 1 ≤ L) :
    mathCeilDiv N L = ((N + L.toNat - 1) / L.toNat : Nat) := by
  obtain ⟨Lt, rfl⟩ : ∃ Lt : Nat, L = (Lt : Int) :=
    ⟨L.toNat, (Int.toNat_of_nonneg (by omega)).symm⟩
  have hLt : 0 < Lt := by exact_mod_cast hL
  simp only [Int.toNat_natCast]
  set q : ℕ := (N + Lt - 1) / Lt with hqdef
  have key : N ≤ q * Lt ∧ q * Lt < N + Lt := by
    have h1 : Lt * q + (N + Lt - 1) % Lt = N + Lt - 1 := Nat.div_add_mod _ _
    have h2 : (N + Lt - 1) % Lt < Lt := Nat.mod_lt _ hLt
    rw [mul_comm] at h1
    generalize hA : q * Lt = A at *
    omega
  have hpos : (0 : ℚ) < (Lt : ℚ) := by exact_mod_cast hLt
  have hq1 : (N : ℚ) ≤ (q : ℚ) * (Lt : ℚ) := by exact_mod_cast key.1
  have hq2 : (q : ℚ) * (Lt : ℚ) < (N : ℚ) + (Lt : ℚ) := by exact_mod_cast key.2
  have hLcast : (((Lt : ℤ)) : ℚ) = (Lt : ℚ) := by push_cast; ring
  have hqcast : (((q : ℤ)) : ℚ) = (q : ℚ) := by push_cast; ring
  rw [mathCeilDiv, hLcast, Int.ceil_eq_iff, hqcast]
  constructor
  · rw [lt_div_iff₀ hpos, sub_mul, one_mul]
    linarith
  · rw [div_le_iff₀ hpos]
    linarith

/-- C3: over `N` total records, with effective limit `L ≥ 1` and page
`P ≥ 1`, the single count+fetch query carries offset `(P - 1) * L`, and the
envelope's meta reports `totalItems = N`,
`totalPages = ceiling(N / L) = (N + L - 1) / L`, `currentPage = P` and
`itemsPerPage = L`. -/
theorem list_pagination_meta {ρ ι : Type} (validRel : String → Option ι)
    (dbF : QueryOptions ι → Except String (Nat × List ρ)) (q : ListQuery)
    (N : Nat) (rows : List ρ)
    (hdb : dbF (listOptions validRel q) = Except.ok (N, rows))
    (hL : 1 ≤ effLimit q) (hP : 1 ≤ effPage q) :
    getAllHandler validRel dbF q =
      ⟨200, CrudBody.envelope
        { meta :=
            { totalItems := N
              totalPages :=
                (((N + (effLimit q).toNat - 1) / (effLimit q).toNat : Nat) : Int)
              currentPage := effPage q
              itemsPerPage := effLimit q
              sortOrder := sortOrderStr q
              includedRelations := jsOrStr (rawInclude q) "none" }
          data := rows }⟩ ∧
    (listOptions validRel q).offset = (effPage q - 1) * effLimit q := by
  constructor
  · simp only [getAllHandler, hdb]
    simp [mkEnvelope, mathCeilDiv_eq_natCeil N (effLimit q) hL]
  · rfl

/-- A concrete list query: limit 2, page 3. -/
def qPage : ListQuery :=
  { limit := some "2", page := some "3", sort := none, includeQ := none }

/-- Witness for C3: two records with limit 2 give one page; page 3 puts
the offset at 4. -/
theorem list_pagination_meta_witness :
    getAllHandler studentValidRelations dbDemo qPage =
      ⟨200, CrudBody.envelope
        { meta := { totalItems := 2, totalPages := 1, currentPage := 3,
                    itemsPerPage := 2, sortOrder := "DESC",
                    includedRelations := "none" }
          data := [10, 20] }⟩ ∧
    (listOptions studentValidRelations qPage).offset = 4 := by
  have H := list_pagination_meta studentValidRelations dbDemo qPage 2 [10, 20]
    rfl (by decide) (by decide)
  refine ⟨?_, ?_⟩
  · rw [H.1]
    decide
  · rw [H.2]
    decide

/-- An `OFFSET`/`LIMIT` slice of a sorted table is sorted. -/
lemma sorted_insertionSort_slice {ρ : Type} (r : ρ → ρ → Prop) [DecidableRel r]
    [IsTotal ρ r] [IsTrans ρ r] (l : List ρ) (o t : Nat) :
    List.Sorted r (((List.insertionSort r l).drop o).take t) :=
  List.Pairwise.sublist
    ((List.take_sublist _ _).trans (List.drop_sublist _ _))
    (List.sorted_insertionSort r l)

/-- C5: against the reference storage semantics, `sort=asc` yields data in
ascending `createdAt` order and reports `sortOrder = "ASC"`; any other
value of the parameter, absence included, yields descending `createdAt`
order and reports `"DESC"`.  The ordering key is `createdAt` in both
cases. -/
theorem list_sorted_by_createdAt {ρ ι : Type} (records : List ρ)
    (createdAt : ρ → Nat) (validRel : String → Option ι) (q : ListQuery)
    (env : ListEnvelope ρ)
    (henv : (getAllHandler validRel
        (fun opts => Except.ok (sqlFindAndCountAll records createdAt opts))
        q).body = CrudBody.envelope env) :
    (q.sort = some "asc" →
      List.Sorted (fun a b => createdAt a ≤ createdAt b) env.data ∧
      env.meta.sortOrder = "ASC") ∧
    (q.sort ≠ some "asc" →
      List.Sorted (fun a b => createdAt b ≤ createdAt a) env.data ∧
      env.meta.sortOrder = "DESC") := by
  haveI h1 : IsTotal ρ (fun a b => createdAt a ≤ createdAt b) :=
    ⟨fun a b => Nat.le_total _ _⟩
  haveI h2 : IsTrans ρ (fun a b => createdAt a ≤ createdAt b) :=
    ⟨fun a b c hab hbc => Nat.le_trans hab hbc⟩
  haveI h3 : IsTotal ρ (fun a b => createdAt b ≤ createdAt a) :=
    ⟨fun a b => Nat.le_total _ _⟩
  haveI h4 : IsTrans ρ (fun a b => createdAt b ≤ createdAt a) :=
    ⟨fun a b c hab hbc => Nat.le_trans hbc hab⟩
  simp only [getAllHandler, sqlFindAndCountAll] at henv
  rw [CrudBody.envelope.injEq] at henv
  subst henv
  constructor
  · intro hs
    have hdir : sortOrderStr q = "ASC" := by simp [sortOrderStr, hs]
    constructor
    · simp only [mkEnvelope, listOptions, hdir]
      rw [if_pos trivial]
      exact sorted_insertionSort_slice _ _ _ _
    · simp [mkEnvelope, sortOrderStr, hs]
  · intro hs
    have hdir : sortOrderStr q = "DESC" := by simp [sortOrderStr, hs]
    constructor
    · simp only [mkEnvelope, listOptions, hdir]
      rw [if_neg (by decide : ¬("DESC" : String) = "ASC")]
      exact sorted_insertionSort_slice _ _ _ _
    · simp [mkEnvelope, sortOrderStr, hs]

/-- A concrete list query asking for ascending order. -/
def qAsc : ListQuery :=
  { limit := none, page := none, sort := some "asc", includeQ := none }

/-- Witness for C5: three records created at times 3, 1, 2 come back as
1, 2, 3 under `sort=asc`. -/
theorem list_sorted_by_createdAt_witness :
    List.Sorted (fun a b : Nat => a ≤ b)
      (mkEnvelope qAsc 3 ([1, 2, 3] : List Nat)).data ∧
    (mkEnvelope qAsc 3 ([1, 2, 3] : List Nat)).meta.sortOrder = "ASC" :=
  (list_sorted_by_createdAt [3, 1, 2] (fun n => n) studentValidRelations qAsc
    (mkEnvelope qAsc 3 [1, 2, 3]) rfl).1 rfl

end SchoolAPI
